import Mathlib

/-!
Verification of the use-case persistence layer of `src/src/api/usecases.ts`.

The development shallowly embeds the functions of that file:

* a dynamic JavaScript value type `JSVal` with the `String(...)` coercion
  (`jsToString`) used at `src/src/api/usecases.ts:84`;
* a model of `JSON.parse` (`jsonParse`), restricted to integer numerals
  (floating-point numerals are outside the model; no claim exercises them);
* the normalization adapter `safeEnsureArray` / `ensureArray`
  (`usecases.ts:66-148`), split into the body of the `try` block
  (`safeEnsureArrayTry`, which returns `Except` so that thrown exceptions are
  visible) and the catch-all wrapper (`safeEnsureArray`);
* the CRUD gateway operations on the local-storage backend, where browser
  storage is modelled as an explicit well-typed list of records threaded
  through each operation (the `JSON.parse(localStorage.getItem(...))`
  round-trip is the identity on such lists), and the Supabase read/write
  transforms, where the remote response `{ data, error }` is an explicit
  input.  Thrown JS exceptions are `Except.error` carrying the message; the
  outer `try/catch` wrappers of each operation are modelled exactly, since
  they decide which message the caller observes.
-/

/-- Dynamic JavaScript values, as discriminated by `typeof` / `Array.isArray`
in `safeEnsureArray` (`usecases.ts:75-137`): `null`, `undefined`, booleans,
numbers (integer-restricted model), strings, arrays, and plain objects. -/
inductive JSVal where
  | jsNull : JSVal
  | jsUndefined : JSVal
  | bool : Bool → JSVal
  | num : Int → JSVal
  | str : String → JSVal
  | arr : List JSVal → JSVal
  | obj : List (String × JSVal) → JSVal
  deriving Repr

mutual

/-- The JavaScript `String(...)` coercion on `JSVal`:
`String(null) = "null"`, `String(undefined) = "undefined"`, booleans and
integers print in decimal, strings are returned verbatim, arrays join the
coercions of their elements with `","` (with `null`/`undefined` elements
rendered as the empty string, per `Array.prototype.join`), and plain objects
print as `"[object Object]"`. -/
def jsToString : JSVal → String
  | .jsNull => "null"
  | .jsUndefined => "undefined"
  | .bool b => if b then "true" else "false"
  | .num n => toString n
  | .str s => s
  | .arr xs => String.intercalate "," (jsJoinParts xs)
  | .obj _ => "[object Object]"

/-- The element renderings used by `Array.prototype.join` inside
`String(array)`: `null` and `undefined` elements render as `""`, all others
through `jsToString`. -/
def jsJoinParts : List JSVal → List String
  | [] => []
  | .jsNull :: vs => "" :: jsJoinParts vs
  | .jsUndefined :: vs => "" :: jsJoinParts vs
  | v :: vs => jsToString v :: jsJoinParts vs

end

namespace JsonModel

/-- One JSON whitespace character (`space`, `\t`, `\n`, `\r`). -/
def isJsonWs (c : Char) : Bool :=
  c = ' ' || c = '\t' || c = '\n' || c = '\r'

/-- Drop leading JSON whitespace. -/
def skipWs : List Char → List Char
  | [] => []
  | c :: cs => if isJsonWs c then skipWs cs else c :: cs

/-- Parse the hexadecimal digit of a `\uXXXX` escape. -/
def hexDigit (c : Char) : Option Nat :=
  if '0' ≤ c ∧ c ≤ '9' then some (c.toNat - '0'.toNat)
  else if 'a' ≤ c ∧ c ≤ 'f' then some (c.toNat - 'a'.toNat + 10)
  else if 'A' ≤ c ∧ c ≤ 'F' then some (c.toNat - 'A'.toNat + 10)
  else none

/-- Parse the body of a JSON string literal (the opening quote already
consumed), returning the decoded characters and the remaining input. -/
def parseStringBody : List Char → Option (List Char × List Char)
  | [] => none
  | '"' :: rest => some ([], rest)
  | '\\' :: rest =>
      match rest with
      | 'u' :: a :: b :: c :: d :: rest' => do
          let ha ← hexDigit a
          let hb ← hexDigit b
          let hc ← hexDigit c
          let hd ← hexDigit d
          let code := ((ha * 16 + hb) * 16 + hc) * 16 + hd
          let (tail, rem) ← parseStringBody rest'
          some (Char.ofNat code :: tail, rem)
      | e :: rest' => do
          let decoded ←
            match e with
            | '"' => some '"'
            | '\\' => some '\\'
            | '/' => some '/'
            | 'b' => some (Char.ofNat 8)
            | 'f' => some (Char.ofNat 12)
            | 'n' => some '\n'
            | 'r' => some '\r'
            | 't' => some '\t'
            | _ => none
          let (tail, rem) ← parseStringBody rest'
          some (decoded :: tail, rem)
      | [] => none
  | c :: rest => do
      let (tail, rem) ← parseStringBody rest
      some (c :: tail, rem)

/-- Parse a run of decimal digits as a natural number (JSON integer part). -/
def parseDigits : List Char → Nat → Option (Nat × List Char)
  | c :: cs, acc =>
      if '0' ≤ c ∧ c ≤ '9' then
        match parseDigits cs (acc * 10 + (c.toNat - '0'.toNat)) with
        | some r => some r
        | none => some (acc * 10 + (c.toNat - '0'.toNat), cs)
      else none
  | [], _ => none

/-- Leading characters of the input that form a digit run, used to enforce
JSON's no-leading-zero rule. -/
def digitRun : List Char → List Char
  | c :: cs => if '0' ≤ c ∧ c ≤ '9' then c :: digitRun cs else []
  | [] => []

/-- Parse a JSON integer numeral: optional `-`, then digits with no leading
zero (fractional and exponent numerals are outside the integer-restricted
model and fail to parse). -/
def parseNumber (input : List Char) : Option (Int × List Char) :=
  let (neg, body) :=
    match input with
    | '-' :: rest => (true, rest)
    | _ => (false, input)
  match digitRun body with
  | [] => none
  | ['0'] =>
      match body with
      | _ :: rest => some (0, rest)
      | [] => none
  | '0' :: _ :: _ => none
  | run => do
      let (n, _) ← parseDigits run 0
      let rest := body.drop run.length
      some (if neg then -(n : Int) else (n : Int), rest)

mutual

/-- Fueled recursive-descent parser for one JSON value, mirroring
`JSON.parse`: literals `null`/`true`/`false`, strings, integer numerals,
arrays and objects. -/
def parseValue : Nat → List Char → Option (JSVal × List Char)
  | 0, _ => none
  | fuel + 1, input =>
      match skipWs input with
      | 'n' :: 'u' :: 'l' :: 'l' :: rest => some (.jsNull, rest)
      | 't' :: 'r' :: 'u' :: 'e' :: rest => some (.bool true, rest)
      | 'f' :: 'a' :: 'l' :: 's' :: 'e' :: rest => some (.bool false, rest)
      | '"' :: rest =>
          match parseStringBody rest with
          | some (cs, rem) => some (.str (String.mk cs), rem)
          | none => none
      | '[' :: rest =>
          match skipWs rest with
          | ']' :: rem => some (.arr [], rem)
          | other => parseArrayItems fuel other []
      | '{' :: rest =>
          match skipWs rest with
          | '}' :: rem => some (.obj [], rem)
          | other => parseObjectItems fuel other []
      | rest =>
          match parseNumber rest with
          | some (n, rem) => some (.num n, rem)
          | none => none

/-- Parse the remaining comma-separated items of a JSON array (after the
opening `[`, when the array is not empty), accumulating parsed elements. -/
def parseArrayItems : Nat → List Char → List JSVal → Option (JSVal × List Char)
  | 0, _, _ => none
  | fuel + 1, input, acc =>
      match parseValue fuel input with
      | none => none
      | some (v, rest) =>
          match skipWs rest with
          | ',' :: rest2 => parseArrayItems fuel rest2 (acc ++ [v])
          | ']' :: rest2 => some (.arr (acc ++ [v]), rest2)
          | _ => none

/-- Parse the remaining `"key": value` members of a JSON object (after the
opening `{`, when the object is not empty), accumulating parsed members. -/
def parseObjectItems :
    Nat → List Char → List (String × JSVal) → Option (JSVal × List Char)
  | 0, _, _ => none
  | fuel + 1, input, acc =>
      match skipWs input with
      | '"' :: rest =>
          match parseStringBody rest with
          | none => none
          | some (key, rest2) =>
              match skipWs rest2 with
              | ':' :: rest3 =>
                  match parseValue fuel rest3 with
                  | none => none
                  | some (v, rest4) =>
                      match skipWs rest4 with
                      | ',' :: rest5 =>
                          parseObjectItems fuel rest5
                            (acc ++ [(String.mk key, v)])
                      | '}' :: rest5 =>
                          some (.obj (acc ++ [(String.mk key, v)]), rest5)
                      | _ => none
              | _ => none
      | _ => none

end

end JsonModel

/-- Model of `JSON.parse` (as called at `usecases.ts:96`): parse the whole
string as one JSON value, allowing surrounding whitespace; `none` models the
thrown `SyntaxError`.  The fuel `2 * length + 2` dominates the recursion
depth, which grows by at most two per consumed input character. -/
def jsonParse (s : String) : Option JSVal :=
  match JsonModel.parseValue (2 * s.data.length + 2) s.data with
  | some (v, rest) => if JsonModel.skipWs rest = [] then some v else none
  | none => none

/-- JavaScript `String.prototype.trim` (whitespace restricted to space,
tab, newline, carriage return): drop leading and trailing whitespace. -/
def jsTrim (s : String) : String :=
  String.mk ((JsonModel.skipWs ((JsonModel.skipWs s.data).reverse)).reverse)

/-- The test of `usecases.ts:94`:
`value.trim().startsWith("[") && value.trim().endsWith("]")`. -/
def looksLikeJsonArray (s : String) : Bool :=
  (match (jsTrim s).data with
   | '[' :: _ => true
   | _ => false) &&
  (match (jsTrim s).data.reverse with
   | ']' :: _ => true
   | _ => false)

/-- Body of the `try` block of `safeEnsureArray` (`usecases.ts:70-137`),
with thrown exceptions visible as `Except.error`.  The branch order is the
source's: `null`/`undefined` (line 75), `Array.isArray` (line 83),
`typeof value === "string"` (line 92, with the bracket test of line 94 and
the inner `try`/`catch` around `JSON.parse` at lines 95-115),
`typeof value === "object"` (line 126), and the final catch-all (line 137).
No reachable operation throws, so every branch is `Except.ok`; `jsonParse`
failure is consumed by the inner `catch` (line 109). -/
def safeEnsureArrayTry (value : JSVal) (fieldName : String) :
    Except String (List String) :=
  match value with
  | .jsNull => .ok []
  | .jsUndefined => .ok []
  | .arr xs => .ok (xs.map fun item => jsToString item)
  | .str s =>
      if looksLikeJsonArray s then
        match jsonParse s with
        | some (.arr parsed) => .ok (parsed.map fun item => jsToString item)
        | some _ => .ok [jsToString (.str s)]
        | none => .ok [s]
      else
        .ok [s]
  | .obj fields => .ok [jsToString (.obj fields)]
  | other => .ok [jsToString other]

/-- `safeEnsureArray` (`usecases.ts:66-143`): the `try` body plus the outer
`catch` (lines 138-142), which degrades any error to the empty list.  The
`fieldName` argument is the diagnostic label of the source; it only feeds
logging and has no control-flow effect. -/
def safeEnsureArray (value : JSVal) (fieldName : String) : List String :=
  match safeEnsureArrayTry value fieldName with
  | .ok result => result
  | .error _ => []

/-- `ensureArray` (`usecases.ts:146-148`): `safeEnsureArray` with the default
diagnostic label. -/
def ensureArray (value : JSVal) : List String :=
  safeEnsureArray value "unknown"

/-- The JS value of a TypeScript `string[]`, as handed to `safeEnsureArray`
by the gateway operations. -/
def jsStrArr (l : List String) : JSVal :=
  .arr (l.map .str)

/-- The `UseCase` entity (`usecases.ts:4-17`).  `status` is a `String`
because `createUseCase` casts the form value without checking it
(line 418). -/
structure UseCase where
  id : String
  title : String
  description : String
  content : String
  industry : String
  category : String
  industries : List String
  categories : List String
  imageUrl : String
  status : String
  createdAt : String
  updatedAt : String
  deriving Repr, DecidableEq

/-- `UseCaseFormData` (`usecases.ts:19-27`). -/
structure UseCaseFormData where
  title : String
  description : String
  content : String
  industries : List String
  categories : List String
  imageUrl : String
  status : String
  deriving Repr, DecidableEq

/-- `Partial<UseCaseFormData>` as consumed by `updateUseCase`
(`usecases.ts:534-536`): `none` models an absent (`undefined`) field. -/
structure PartialUseCaseFormData where
  title : Option String
  description : Option String
  content : Option String
  industries : Option (List String)
  categories : Option (List String)
  imageUrl : Option String
  status : Option String
  deriving Repr, DecidableEq

/-- `[x].filter(Boolean)` on a string (`usecases.ts:168,172,263,272`): keeps
the element unless it is falsy (the empty string). -/
def filterBoolean (l : List String) : List String :=
  l.filter fun s => s != ""

/-- `arr.length > 0 ? arr[0] : ""`, the primary-field derivation used
throughout the gateway (`usecases.ts:400-403,578-581`). -/
def headOrEmpty (l : List String) : String :=
  l.headD ""

/-- The placeholder image of `usecases.ts:389`. -/
def defaultImageUrl : String :=
  "https://images.unsplash.com/photo-1579546929518-9e396f3cc809?w=800&q=80"

/-- Local-backend `getUseCases` (`usecases.ts:156-176`): browser storage is
modelled as the well-typed list `store` (the `JSON.parse ∘ localStorage`
round-trip is the identity on it); each record's list fields are
re-normalized through `ensureArray`, falling back to the filtered singleton
of the legacy scalar when normalization is empty. -/
def getUseCases (store : List UseCase) : List UseCase :=
  store.map fun useCase =>
    { useCase with
      industries :=
        if (ensureArray (jsStrArr useCase.industries)).length > 0 then
          ensureArray (jsStrArr useCase.industries)
        else filterBoolean [useCase.industry]
      categories :=
        if (ensureArray (jsStrArr useCase.categories)).length > 0 then
          ensureArray (jsStrArr useCase.categories)
        else filterBoolean [useCase.category] }

/-- Local-backend `getUseCaseById` (`usecases.ts:246-281`): `find` on the
stored list, `none` when no record matches (line 253), and the same
normalization fallback as `getUseCases`.  No reachable branch throws. -/
def getUseCaseById (id : String) (store : List UseCase) : Option UseCase :=
  match store.find? (fun useCase => useCase.id == id) with
  | none => none
  | some useCase =>
      let industriesArray :=
        safeEnsureArray (jsStrArr useCase.industries)
          "localstorage_get_industries"
      let finalIndustries :=
        if industriesArray.length > 0 then industriesArray
        else filterBoolean [useCase.industry]
      let categoriesArray :=
        safeEnsureArray (jsStrArr useCase.categories)
          "localstorage_get_categories"
      let finalCategories :=
        if categoriesArray.length > 0 then categoriesArray
        else filterBoolean [useCase.category]
      some { useCase with
              industries := finalIndustries
              categories := finalCategories }

/-- Local-backend `createUseCase` (`usecases.ts:347-427`): the validation of
lines 357-384 (shared by both backends, evaluated before any storage
access), the `imageUrl` default of line 387 (`||` treats the empty string as
absent), and the local write of lines 393-427.  `nowMs` models `Date.now()`
(line 409) and `nowIso` models `new Date().toISOString()` (line 391).  A
thrown validation error leaves the store untouched; the outer `catch`
(lines 526-531) re-throws with the same message, so the returned message is
what the caller observes. -/
def createUseCase (data : UseCaseFormData) (nowMs : Nat) (nowIso : String)
    (store : List UseCase) : Except String UseCase × List UseCase :=
  if jsTrim data.title = "" then (.error "Title is required", store)
  else if jsTrim data.description = "" then
    (.error "Description is required", store)
  else if jsTrim data.content = "" then (.error "Content is required", store)
  else
    let industriesArray :=
      safeEnsureArray (jsStrArr data.industries) "create_industries"
    if industriesArray.length = 0 then
      (.error "At least one industry is required", store)
    else
      let categoriesArray :=
        safeEnsureArray (jsStrArr data.categories) "create_categories"
      if categoriesArray.length = 0 then
        (.error "At least one category is required", store)
      else
        let imageUrl :=
          if data.imageUrl = "" then defaultImageUrl else data.imageUrl
        let newUseCase : UseCase :=
          { id := "usecase_" ++ toString nowMs
            title := data.title
            description := data.description
            content := data.content
            industries := industriesArray
            categories := categoriesArray
            industry := headOrEmpty industriesArray
            category := headOrEmpty categoriesArray
            imageUrl := imageUrl
            status := data.status
            createdAt := nowIso
            updatedAt := nowIso }
        (.ok newUseCase, store ++ [newUseCase])

/-- The record update built by local-backend `updateUseCase`
(`usecases.ts:558-602`): fields present in the partial input replace the old
ones (`!== undefined` tests), list fields are re-normalized (from the new
value when supplied, from the stored value otherwise), the primary scalars
are recomputed from the final lists, and `updatedAt` is set to `now`. -/
def applyUpdate (data : PartialUseCaseFormData) (nowIso : String)
    (useCase : UseCase) : UseCase :=
  let industriesArray :=
    match data.industries with
    | some l => safeEnsureArray (jsStrArr l) "new_industries"
    | none =>
        safeEnsureArray (jsStrArr useCase.industries) "existing_industries"
  let categoriesArray :=
    match data.categories with
    | some l => safeEnsureArray (jsStrArr l) "new_categories"
    | none =>
        safeEnsureArray (jsStrArr useCase.categories) "existing_categories"
  { useCase with
    title := data.title.getD useCase.title
    description := data.description.getD useCase.description
    content := data.content.getD useCase.content
    industries := industriesArray
    categories := categoriesArray
    industry := headOrEmpty industriesArray
    category := headOrEmpty categoriesArray
    imageUrl := data.imageUrl.getD useCase.imageUrl
    status := data.status.getD useCase.status
    updatedAt := nowIso }

/-- `findIndex` plus in-place assignment of local-backend `updateUseCase`
(`usecases.ts:552-604`): the first record whose id matches is replaced by
`applyUpdate` of it; `none` when no record matches. -/
def updateUseCaseGo (id : String) (data : PartialUseCaseFormData)
    (nowIso : String) : List UseCase → Option (UseCase × List UseCase)
  | [] => none
  | useCase :: rest =>
      if useCase.id == id then
        let updatedUseCase := applyUpdate data nowIso useCase
        some (updatedUseCase, updatedUseCase :: rest)
      else
        match updateUseCaseGo id data nowIso rest with
        | none => none
        | some (u, rest2) => some (u, useCase :: rest2)

/-- Local-backend `updateUseCase` (`usecases.ts:534-608`): not-found ids
throw `Use case with ID ${id} not found` (line 555) before any write; the
outer `catch` (lines 741-748) re-throws `error.message` unchanged, so that
message is exactly what the caller observes. -/
def updateUseCase (id : String) (data : PartialUseCaseFormData)
    (nowIso : String) (store : List UseCase) :
    Except String UseCase × List UseCase :=
  match updateUseCaseGo id data nowIso store with
  | none => (.error ("Use case with ID " ++ id ++ " not found"), store)
  | some (u, store2) => (.ok u, store2)

/-- `try` body of local-backend `deleteUseCase` (`usecases.ts:756-770`):
filter out the id; when nothing was removed, throw
`Use case with ID ${id} not found` before writing. -/
def deleteUseCaseTry (id : String) (store : List UseCase) :
    Except String Unit × List UseCase :=
  let updatedUseCases := store.filter fun useCase => useCase.id != id
  if store.length = updatedUseCases.length then
    (.error ("Use case with ID " ++ id ++ " not found"), store)
  else
    (.ok (), updatedUseCases)

/-- Local-backend `deleteUseCase` (`usecases.ts:751-783`): the outer `catch`
(lines 779-782) replaces ANY failure message — the not-found throw included —
with the generic `Failed to delete use case with ID ${id}`. -/
def deleteUseCase (id : String) (store : List UseCase) :
    Except String Unit × List UseCase :=
  match deleteUseCaseTry id store with
  | (.error _, st) => (.error ("Failed to delete use case with ID " ++ id), st)
  | ok => ok

/-- A raw row of the remote `usecases` table as the Supabase client returns
it.  The list-typed columns are dynamic (`JSVal`) — historically they held
native arrays, JSON-encoded text, or bare scalars, which is why every read
passes them through `safeEnsureArray`.  Text columns are modelled as
`String` with `""` also standing for SQL `NULL`: the transforms only ever
test them for JS falsiness (`x || y`), which identifies the two. -/
structure SupabaseRow where
  id : String
  title : String
  description : String
  content : String
  industry : String
  category : String
  industries : JSVal
  categories : JSVal
  image_url : String
  status : String
  created_at : String
  updated_at : String
  deriving Repr

/-- Remote-backend `getUseCases` row transform and error wrapping
(`usecases.ts:177-236`): a backend error becomes the generic
`Failed to fetch use cases` (line 235); rows are normalized, with empty
normalizations falling back to the legacy scalar (lines 207-213) and the
primary scalars taken from the row, or from the first list element when the
row's scalar is falsy (lines 220-223).  The `catch`es of lines 192-204
cannot fire (`ensureArray` is total). -/
def getUseCasesSupabase (resp : Except String (List SupabaseRow)) :
    Except String (List UseCase) :=
  match resp with
  | .error _ => .error "Failed to fetch use cases"
  | .ok rows =>
      .ok (rows.map fun useCase =>
        let industries0 := ensureArray useCase.industries
        let categories0 := ensureArray useCase.categories
        let industries :=
          if industries0.length = 0 ∧ useCase.industry ≠ "" then
            [useCase.industry]
          else industries0
        let categories :=
          if categories0.length = 0 ∧ useCase.category ≠ "" then
            [useCase.category]
          else categories0
        { id := useCase.id
          title := useCase.title
          description := useCase.description
          content := useCase.content
          industry :=
            if useCase.industry ≠ "" then useCase.industry
            else headOrEmpty industries
          category :=
            if useCase.category ≠ "" then useCase.category
            else headOrEmpty categories
          industries := industries
          categories := categories
          imageUrl := useCase.image_url
          status := useCase.status
          createdAt := useCase.created_at
          updatedAt := useCase.updated_at })

/-- Remote-backend `getUseCaseById` (`usecases.ts:282-343`): the client's
`{ data, error }` response to `.select().eq("id", id).single()` is the
explicit input `resp`.  A reported error is thrown (line 290) and rewrapped
by the outer `catch` as `Failed to fetch use case with ID ${id}`
(line 342); absent data returns `none` (line 291); otherwise the row is
normalized with the `|| ""` / `|| "draft"` / current-time defaults of
lines 318-335. -/
def getUseCaseByIdSupabase (id : String) (nowIso : String)
    (resp : Option String × Option SupabaseRow) :
    Except String (Option UseCase) :=
  match resp.1 with
  | some _ => .error ("Failed to fetch use case with ID " ++ id)
  | none =>
      match resp.2 with
      | none => .ok none
      | some data =>
          let industriesArray :=
            safeEnsureArray data.industries "supabase_get_industries"
          let categoriesArray :=
            safeEnsureArray data.categories "supabase_get_categories"
          .ok (some
            { id := data.id
              title := data.title
              description := data.description
              content := data.content
              industry :=
                if data.industry ≠ "" then data.industry
                else headOrEmpty industriesArray
              category :=
                if data.category ≠ "" then data.category
                else headOrEmpty categoriesArray
              industries := industriesArray
              categories := categoriesArray
              imageUrl := data.image_url
              status := if data.status = "" then "draft" else data.status
              createdAt :=
                if data.created_at = "" then nowIso else data.created_at
              updatedAt :=
                if data.updated_at = "" then nowIso else data.updated_at })

/-- Remote-backend `createUseCase` (`usecases.ts:428-525`): the same
validation as the local path runs first (lines 357-384), before the insert
response `insertResp` is ever consulted; an insert error becomes
`Failed to create use case: ${message}` (line 470, preserved by the outer
`catch` of lines 526-531); otherwise the returned row is transformed per
lines 504-517. -/
def createUseCaseSupabase (data : UseCaseFormData)
    (insertResp : Except String SupabaseRow) : Except String UseCase :=
  if jsTrim data.title = "" then .error "Title is required"
  else if jsTrim data.description = "" then .error "Description is required"
  else if jsTrim data.content = "" then .error "Content is required"
  else
    let industriesArray :=
      safeEnsureArray (jsStrArr data.industries) "create_industries"
    if industriesArray.length = 0 then
      .error "At least one industry is required"
    else
      let categoriesArray :=
        safeEnsureArray (jsStrArr data.categories) "create_categories"
      if categoriesArray.length = 0 then
        .error "At least one category is required"
      else
        match insertResp with
        | .error m => .error ("Failed to create use case: " ++ m)
        | .ok useCaseData =>
            .ok
              { id := useCaseData.id
                title := useCaseData.title
                description := useCaseData.description
                content := useCaseData.content
                industry := useCaseData.industry
                category := useCaseData.category
                industries :=
                  safeEnsureArray useCaseData.industries
                    "returned_create_industries"
                categories :=
                  safeEnsureArray useCaseData.categories
                    "returned_create_categories"
                imageUrl := useCaseData.image_url
                status := useCaseData.status
                createdAt := useCaseData.created_at
                updatedAt := useCaseData.updated_at }

/-- Remote-backend `updateUseCase` (`usecases.ts:609-739`): an update error
becomes `Failed to update use case: ${message}` (line 693, preserved by the
outer `catch` of lines 741-748, which re-throws `error.message`);
otherwise the returned row is transformed per lines 722-736 (note: here the
primary scalars come from the row with a plain `|| ""`, without the
first-element fallback of the read paths). -/
def updateUseCaseSupabase (resp : Except String SupabaseRow)
    (nowIso : String) : Except String UseCase :=
  match resp with
  | .error m => .error ("Failed to update use case: " ++ m)
  | .ok useCaseData =>
      .ok
        { id := useCaseData.id
          title := useCaseData.title
          description := useCaseData.description
          content := useCaseData.content
          industry := useCaseData.industry
          category := useCaseData.category
          industries :=
            safeEnsureArray useCaseData.industries "returned_industries"
          categories :=
            safeEnsureArray useCaseData.categories "returned_categories"
          imageUrl := useCaseData.image_url
          status := if useCaseData.status = "" then "draft" else useCaseData.status
          createdAt :=
            if useCaseData.created_at = "" then nowIso
            else useCaseData.created_at
          updatedAt :=
            if useCaseData.updated_at = "" then nowIso
            else useCaseData.updated_at }

/-- `try` body of remote-backend `deleteUseCase` (`usecases.ts:772-777`):
a backend-reported error throws `Failed to delete use case: ${message}`. -/
def deleteUseCaseSupabaseTry (backendError : Option String) :
    Except String Unit :=
  match backendError with
  | some m => .error ("Failed to delete use case: " ++ m)
  | none => .ok ()

/-- Remote-backend `deleteUseCase` with its outer `catch`
(`usecases.ts:779-782`): every failure is rewrapped as the generic
`Failed to delete use case with ID ${id}` — the same message the local
backend's not-found path surfaces. -/
def deleteUseCaseSupabase (id : String) (backendError : Option String) :
    Except String Unit :=
  match deleteUseCaseSupabaseTry backendError with
  | .error _ => .error ("Failed to delete use case with ID " ++ id)
  | ok => ok

/-- The derived-scalar invariant of the spec's data model:
`industry == industries[0]` and `category == categories[0]` when the arrays
are non-empty, and both scalars empty when their array is empty. -/
def InvUseCase (u : UseCase) : Prop :=
  u.industry = headOrEmpty u.industries ∧ u.category = headOrEmpty u.categories

instance (u : UseCase) : Decidable (InvUseCase u) := by
  unfold InvUseCase; infer_instance

/-- Consistency of a raw remote row: each legacy scalar is either empty (SQL
`NULL`/`""`) or agrees with the first element of the normalized list column.
Rows written by the gateway's own create/update paths have this shape
(`usecases.ts:441-454,645-676`). -/
def RowConsistent (row : SupabaseRow) : Prop :=
  (row.industry = "" ∨ row.industry = headOrEmpty (ensureArray row.industries)) ∧
  (row.category = "" ∨ row.category = headOrEmpty (ensureArray row.categories))

/-- A gateway-written stored record (scalar fields agree with the first
array elements), used as a concrete store in several witnesses. -/
def sampleUseCase : UseCase :=
  { id := "u1"
    title := "Title"
    description := "Desc"
    content := "Content"
    industry := "Finance"
    category := "Ops"
    industries := ["Finance", "Retail"]
    categories := ["Ops"]
    imageUrl := "img"
    status := "published"
    createdAt := "2024-01-01"
    updatedAt := "2024-01-02" }

/-- A stored record whose legacy scalar disagrees with its array — the shape
of pre-gateway/legacy data that the normalization layer exists to paper
over. -/
def badStoredUseCase : UseCase :=
  { id := "u2"
    title := "t"
    description := "d"
    content := "c"
    industry := "X"
    category := ""
    industries := ["Y"]
    categories := []
    imageUrl := ""
    status := "draft"
    createdAt := ""
    updatedAt := "" }

/-- A fully valid creation form with two industries. -/
def financeFormData : UseCaseFormData :=
  { title := "AI in Banking"
    description := "A use case"
    content := "Body"
    industries := ["Finance", "Retail"]
    categories := ["Ops"]
    imageUrl := ""
    status := "published" }

/-- The entity `createUseCase financeFormData 5 "t0"` stores and returns. -/
def financeCreated : UseCase :=
  { id := "usecase_5"
    title := "AI in Banking"
    description := "A use case"
    content := "Body"
    industry := "Finance"
    category := "Ops"
    industries := ["Finance", "Retail"]
    categories := ["Ops"]
    imageUrl := defaultImageUrl
    status := "published"
    createdAt := "t0"
    updatedAt := "t0" }

/-- A creation form whose only industry is a whitespace-only string. -/
def wsFormData : UseCaseFormData :=
  { title := "T"
    description := "D"
    content := "C"
    industries := ["   "]
    categories := ["Cat"]
    imageUrl := "img"
    status := "draft" }

/-- A creation form with a whitespace-only title. -/
def blankTitleFormData : UseCaseFormData :=
  { title := "  "
    description := "D"
    content := "C"
    industries := ["Finance"]
    categories := ["Ops"]
    imageUrl := ""
    status := "draft" }

/-- A creation form with no industries. -/
def noIndustryFormData : UseCaseFormData :=
  { title := "T"
    description := "D"
    content := "C"
    industries := []
    categories := ["Ops"]
    imageUrl := ""
    status := "draft" }

/-- A partial update that supplies only `categories`. -/
def newCatPartial : PartialUseCaseFormData :=
  { title := none
    description := none
    content := none
    industries := none
    categories := some ["NewCat"]
    imageUrl := none
    status := none }

/-! ### Basic lemmas about the normalization adapter -/

/-- The diagnostic label does not influence `safeEnsureArray`'s result. -/
theorem safeEnsureArray_label_irrel (v : JSVal) (l1 l2 : String) :
    safeEnsureArray v l1 = safeEnsureArray v l2 := rfl

/-- The `try` body of `safeEnsureArray` never raises: it returns exactly the
list that the wrapped function returns. -/
theorem safeEnsureArrayTry_ok (v : JSVal) (label : String) :
    safeEnsureArrayTry v label = .ok (safeEnsureArray v label) := by
  cases v with
  | str s =>
      by_cases hb : looksLikeJsonArray s = true
      · rcases hp : jsonParse s with _ | w
        · simp [safeEnsureArray, safeEnsureArrayTry, hb, hp]
        · cases w <;> simp [safeEnsureArray, safeEnsureArrayTry, hb, hp]
      · simp [safeEnsureArray, safeEnsureArrayTry, hb]
  | jsNull => rfl
  | jsUndefined => rfl
  | bool b => rfl
  | num n => rfl
  | arr xs => rfl
  | obj fields => rfl

/-- On the image of a TypeScript `string[]`, `safeEnsureArray` is the
identity: each element is a string and `String(...)` returns it verbatim. -/
theorem safeEnsureArray_jsStrArr (l : List String) (label : String) :
    safeEnsureArray (jsStrArr l) label = l := by
  simp [jsStrArr, safeEnsureArray, safeEnsureArrayTry, List.map_map,
    Function.comp_def, jsToString]

/-- C1: for every input value (null, undefined, array, string, number,
boolean, or object) and every diagnostic label, `safeEnsureArray` returns a
list of strings and never raises: the body of its `try` block evaluates to
`Except.ok` of exactly the returned list on every input, so the outer
`catch` (which would degrade an error to `[]`) never fires. -/
theorem safeEnsureArray_never_raises (v : JSVal) (label : String) :
    safeEnsureArrayTry v label = Except.ok (safeEnsureArray v label) :=
  safeEnsureArrayTry_ok v label

/-- C2: for a string whose trimmed form starts with `[` and ends with `]`:
a successful parse to a JSON array yields that array's elements mapped to
their string forms; a successful parse to a non-array yields the singleton
of the stringified original value; a failed parse yields the singleton of
the entire original string (brackets included); and no case raises. -/
theorem safeEnsureArray_bracket_string (s label : String)
    (h : looksLikeJsonArray s = true) :
    (∀ xs, jsonParse s = some (.arr xs) →
      safeEnsureArray (.str s) label = xs.map fun item => jsToString item) ∧
    (∀ v, jsonParse s = some v → (∀ xs, v ≠ .arr xs) →
      safeEnsureArray (.str s) label = [jsToString (.str s)]) ∧
    (jsonParse s = none → safeEnsureArray (.str s) label = [s]) ∧
    safeEnsureArrayTry (.str s) label =
      Except.ok (safeEnsureArray (.str s) label) := by
  refine ⟨?_, ?_, ?_, safeEnsureArrayTry_ok _ _⟩
  · intro xs hp
    simp [safeEnsureArray, safeEnsureArrayTry, h, hp]
  · intro v hp hv
    cases v with
    | arr xs => exact absurd rfl (hv xs)
    | _ => simp [safeEnsureArray, safeEnsureArrayTry, h, hp]
  · intro hp
    simp [safeEnsureArray, safeEnsureArrayTry, h, hp]

theorem safeEnsureArray_bracket_string_witness :
    looksLikeJsonArray "[\"x\",\"y\"]" = true ∧
    jsonParse "[\"x\",\"y\"]" = some (.arr [.str "x", .str "y"]) ∧
    safeEnsureArray (.str "[\"x\",\"y\"]") "lbl" = ["x", "y"] ∧
    looksLikeJsonArray "[not valid json]" = true ∧
    jsonParse "[not valid json]" = none ∧
    safeEnsureArray (.str "[not valid json]") "lbl" = ["[not valid json]"] :=
  ⟨by decide, by rfl,
   ((safeEnsureArray_bracket_string "[\"x\",\"y\"]" "lbl" (by decide)).1
      [.str "x", .str "y"] (by rfl)).trans (by rfl),
   by decide, by rfl,
   (safeEnsureArray_bracket_string "[not valid json]" "lbl" (by decide)).2.2.1
      (by rfl)⟩

/-- C9: base cases of the normalization adapter: `null` and `undefined`
yield `[]`; an array maps each element to its string form, preserving order
and duplicates; a non-bracket-shaped string becomes the singleton of that
string; numbers, booleans and plain objects become singletons of their
string forms (`"[object Object]"` for objects). -/
theorem safeEnsureArray_base_cases :
    (∀ label, safeEnsureArray .jsNull label = []) ∧
    (∀ label, safeEnsureArray .jsUndefined label = []) ∧
    (∀ xs label,
      safeEnsureArray (.arr xs) label = xs.map fun item => jsToString item) ∧
    (∀ s label, looksLikeJsonArray s = false →
      safeEnsureArray (.str s) label = [s]) ∧
    (∀ n label, safeEnsureArray (.num n) label = [jsToString (.num n)]) ∧
    (∀ b label, safeEnsureArray (.bool b) label = [jsToString (.bool b)]) ∧
    (∀ fields label,
      safeEnsureArray (.obj fields) label = ["[object Object]"]) := by
  refine ⟨fun _ => rfl, fun _ => rfl, fun _ _ => rfl, ?_, fun _ _ => rfl,
    fun _ _ => rfl, fun _ _ => rfl⟩
  intro s label h
  simp [safeEnsureArray, safeEnsureArrayTry, h]

theorem safeEnsureArray_base_cases_witness :
    safeEnsureArray .jsNull "w1" = [] ∧
    safeEnsureArray .jsUndefined "w2" = [] ∧
    safeEnsureArray (jsStrArr ["a", "a"]) "w3" = ["a", "a"] ∧
    looksLikeJsonArray "plain" = false ∧
    safeEnsureArray (.str "plain") "w4" = ["plain"] ∧
    safeEnsureArray (.num 42) "w5" = ["42"] ∧
    safeEnsureArray (.obj []) "w6" = ["[object Object]"] :=
  ⟨safeEnsureArray_base_cases.1 "w1",
   safeEnsureArray_base_cases.2.1 "w2",
   (safeEnsureArray_base_cases.2.2.1 [.str "a", .str "a"] "w3").trans (by rfl),
   by decide,
   safeEnsureArray_base_cases.2.2.2.1 "plain" "w4" (by decide),
   (safeEnsureArray_base_cases.2.2.2.2.1 42 "w5").trans (by rfl),
   safeEnsureArray_base_cases.2.2.2.2.2.2 [] "w6"⟩

/-- C5: `createUseCase` rejects invalid input synchronously, with a message
naming the offending field, before any backend access (the result does not
depend on the insert response) and without touching the stored state:
whitespace-only `title`/`description`/`content` fail citing that field, and
an `industries`/`categories` list that normalizes to empty fails citing
industry/category. -/
theorem create_validation_errors (data : UseCaseFormData) (nowMs : Nat)
    (nowIso : String) (store : List UseCase)
    (insertResp : Except String SupabaseRow) :
    (jsTrim data.title = "" →
      createUseCase data nowMs nowIso store =
        (.error "Title is required", store) ∧
      createUseCaseSupabase data insertResp = .error "Title is required") ∧
    (jsTrim data.title ≠ "" → jsTrim data.description = "" →
      createUseCase data nowMs nowIso store =
        (.error "Description is required", store) ∧
      createUseCaseSupabase data insertResp =
        .error "Description is required") ∧
    (jsTrim data.title ≠ "" → jsTrim data.description ≠ "" →
      jsTrim data.content = "" →
      createUseCase data nowMs nowIso store =
        (.error "Content is required", store) ∧
      createUseCaseSupabase data insertResp = .error "Content is required") ∧
    (jsTrim data.title ≠ "" → jsTrim data.description ≠ "" →
      jsTrim data.content ≠ "" →
      safeEnsureArray (jsStrArr data.industries) "create_industries" = [] →
      createUseCase data nowMs nowIso store =
        (.error "At least one industry is required", store) ∧
      createUseCaseSupabase data insertResp =
        .error "At least one industry is required") ∧
    (jsTrim data.title ≠ "" → jsTrim data.description ≠ "" →
      jsTrim data.content ≠ "" →
      safeEnsureArray (jsStrArr data.industries) "create_industries" ≠ [] →
      safeEnsureArray (jsStrArr data.categories) "create_categories" = [] →
      createUseCase data nowMs nowIso store =
        (.error "At least one category is required", store) ∧
      createUseCaseSupabase data insertResp =
        .error "At least one category is required") := by
  refine ⟨?_, ?_, ?_, ?_, ?_⟩
  · intro h1
    constructor <;> simp [createUseCase, createUseCaseSupabase, h1]
  · intro h1 h2
    constructor <;> simp [createUseCase, createUseCaseSupabase, h1, h2]
  · intro h1 h2 h3
    constructor <;> simp [createUseCase, createUseCaseSupabase, h1, h2, h3]
  · intro h1 h2 h3 h4
    constructor <;>
      simp [createUseCase, createUseCaseSupabase, h1, h2, h3,
        List.length_eq_zero, h4]
  · intro h1 h2 h3 h4 h5
    constructor <;>
      simp [createUseCase, createUseCaseSupabase, h1, h2, h3,
        List.length_eq_zero, h4, h5]

theorem create_validation_errors_witness :
    jsTrim blankTitleFormData.title = "" ∧
    createUseCase blankTitleFormData 1 "t0" [sampleUseCase] =
      (.error "Title is required", [sampleUseCase]) ∧
    createUseCaseSupabase blankTitleFormData (.error "backend down") =
      .error "Title is required" ∧
    jsTrim noIndustryFormData.title ≠ "" ∧
    safeEnsureArray (jsStrArr noIndustryFormData.industries)
      "create_industries" = [] ∧
    createUseCase noIndustryFormData 1 "t0" [] =
      (.error "At least one industry is required", []) :=
  ⟨by decide,
   ((create_validation_errors blankTitleFormData 1 "t0" [sampleUseCase]
      (.error "backend down")).1 (by decide)).1,
   ((create_validation_errors blankTitleFormData 1 "t0" [sampleUseCase]
      (.error "backend down")).1 (by decide)).2,
   by decide, by decide,
   ((create_validation_errors noIndustryFormData 1 "t0" []
      (.error "x")).2.2.2.1 (by decide) (by decide) (by decide)
      (by decide)).1⟩

/-- Full description of a successful local-backend create. -/
theorem createUseCase_success (data : UseCaseFormData) (nowMs : Nat)
    (nowIso : String) (store : List UseCase) (i c : String)
    (is cs : List String)
    (hind : data.industries = i :: is) (hcat : data.categories = c :: cs)
    (h1 : jsTrim data.title ≠ "") (h2 : jsTrim data.description ≠ "")
    (h3 : jsTrim data.content ≠ "") :
    ∃ uc, createUseCase data nowMs nowIso store = (.ok uc, store ++ [uc]) ∧
      uc.title = data.title ∧ uc.description = data.description ∧
      uc.content = data.content ∧
      uc.industry = i ∧ uc.industries = i :: is ∧
      uc.category = c ∧ uc.categories = c :: cs ∧
      uc.createdAt = nowIso ∧ uc.updatedAt = nowIso ∧
      uc.status = data.status ∧
      uc.id = "usecase_" ++ toString nowMs ∧
      (data.imageUrl = "" → uc.imageUrl = defaultImageUrl) ∧
      (data.imageUrl ≠ "" → uc.imageUrl = data.imageUrl) := by
  refine
    ⟨{ id := "usecase_" ++ toString nowMs
       title := data.title
       description := data.description
       content := data.content
       industry := i
       category := c
       industries := i :: is
       categories := c :: cs
       imageUrl := if data.imageUrl = "" then defaultImageUrl
                   else data.imageUrl
       status := data.status
       createdAt := nowIso
       updatedAt := nowIso },
     ?_, rfl, rfl, rfl, rfl, rfl, rfl, rfl, rfl, rfl, rfl, rfl, ?_, ?_⟩
  · simp [createUseCase, h1, h2, h3, safeEnsureArray_jsStrArr, hind, hcat,
      headOrEmpty]
  · intro h; simp [h]
  · intro h; simp [h]

/-- C8: a successful local-backend create stores and returns an entity whose
arrays are exactly the supplied lists, whose scalar `industry`/`category`
are their first elements, whose `createdAt`/`updatedAt` both equal the
creation time, and whose `imageUrl` falls back to the fixed placeholder
exactly when none was supplied. -/
theorem create_stores_supplied_arrays (data : UseCaseFormData) (nowMs : Nat)
    (nowIso : String) (store : List UseCase) (i c : String)
    (is cs : List String)
    (hind : data.industries = i :: is) (hcat : data.categories = c :: cs)
    (h1 : jsTrim data.title ≠ "") (h2 : jsTrim data.description ≠ "")
    (h3 : jsTrim data.content ≠ "") :
    ∃ uc, createUseCase data nowMs nowIso store = (.ok uc, store ++ [uc]) ∧
      uc.title = data.title ∧ uc.description = data.description ∧
      uc.content = data.content ∧
      uc.industry = i ∧ uc.industries = i :: is ∧
      uc.category = c ∧ uc.categories = c :: cs ∧
      uc.createdAt = nowIso ∧ uc.updatedAt = nowIso ∧
      uc.status = data.status ∧
      uc.id = "usecase_" ++ toString nowMs ∧
      (data.imageUrl = "" → uc.imageUrl = defaultImageUrl) ∧
      (data.imageUrl ≠ "" → uc.imageUrl = data.imageUrl) :=
  createUseCase_success data nowMs nowIso store i c is cs hind hcat h1 h2 h3

theorem create_stores_supplied_arrays_witness :
    financeFormData.industries = ["Finance", "Retail"] ∧
    financeFormData.categories = ["Ops"] ∧
    jsTrim financeFormData.title ≠ "" ∧
    jsTrim financeFormData.description ≠ "" ∧
    jsTrim financeFormData.content ≠ "" ∧
    (∃ uc, createUseCase financeFormData 5 "t0" [] = (.ok uc, [] ++ [uc]) ∧
      uc.title = financeFormData.title ∧
      uc.description = financeFormData.description ∧
      uc.content = financeFormData.content ∧
      uc.industry = "Finance" ∧ uc.industries = ["Finance", "Retail"] ∧
      uc.category = "Ops" ∧ uc.categories = ["Ops"] ∧
      uc.createdAt = "t0" ∧ uc.updatedAt = "t0" ∧
      uc.status = financeFormData.status ∧
      uc.id = "usecase_" ++ toString 5 ∧
      (financeFormData.imageUrl = "" → uc.imageUrl = defaultImageUrl) ∧
      (financeFormData.imageUrl ≠ "" →
        uc.imageUrl = financeFormData.imageUrl)) :=
  ⟨rfl, rfl, by decide, by decide, by decide,
   create_stores_supplied_arrays financeFormData 5 "t0" [] "Finance" "Ops"
     ["Retail"] [] rfl rfl (by decide) (by decide) (by decide)⟩

/-- C10: the adapter returns string elements verbatim, without trimming, so
a whitespace-only string normalizes to a non-empty singleton; consequently a
create whose only industry is `"   "` passes the at-least-one-industry
validation and persists an entity whose derived `industry` is the
whitespace-only string. -/
theorem whitespace_not_trimmed (label : String) (data : UseCaseFormData)
    (nowMs : Nat) (nowIso : String) (store : List UseCase)
    (hind : data.industries = ["   "])
    (h1 : jsTrim data.title ≠ "") (h2 : jsTrim data.description ≠ "")
    (h3 : jsTrim data.content ≠ "") (hcat : data.categories ≠ []) :
    safeEnsureArray (.str "   ") label = ["   "] ∧
    ∃ uc, createUseCase data nowMs nowIso store = (.ok uc, store ++ [uc]) ∧
      uc.industry = "   " ∧ uc.industries = ["   "] := by
  refine ⟨rfl, ?_⟩
  obtain ⟨c, cs, hccs⟩ : ∃ c cs, data.categories = c :: cs := by
    cases hc : data.categories with
    | nil => exact absurd hc hcat
    | cons c cs => exact ⟨c, cs, rfl⟩
  obtain ⟨uc, hmain, _, _, _, hi, his, _⟩ :=
    createUseCase_success data nowMs nowIso store "   " c [] cs
      hind hccs h1 h2 h3
  exact ⟨uc, hmain, hi, his⟩

theorem whitespace_not_trimmed_witness :
    wsFormData.industries = ["   "] ∧
    jsTrim wsFormData.title ≠ "" ∧
    jsTrim wsFormData.description ≠ "" ∧
    jsTrim wsFormData.content ≠ "" ∧
    wsFormData.categories ≠ [] ∧
    (safeEnsureArray (.str "   ") "w" = ["   "] ∧
      ∃ uc, createUseCase wsFormData 7 "t1" [] = (.ok uc, [] ++ [uc]) ∧
        uc.industry = "   " ∧ uc.industries = ["   "]) :=
  ⟨rfl, by decide, by decide, by decide, by decide,
   whitespace_not_trimmed "w" wsFormData 7 "t1" [] rfl (by decide)
     (by decide) (by decide) (by decide)⟩

/-- When no stored record has the id, the local `find` comes up empty. -/
theorem getUseCaseById_none_of_notMem (id : String) (store : List UseCase)
    (h : ∀ r ∈ store, r.id ≠ id) : getUseCaseById id store = none := by
  have hf : store.find? (fun useCase => useCase.id == id) = none := by
    rw [List.find?_eq_none]
    intro x hx
    simpa using h x hx
  simp [getUseCaseById, hf]

/-- A successful local delete leaves exactly the records whose id differs. -/
theorem deleteUseCase_ok_filter (id : String) (store store2 : List UseCase)
    (h : deleteUseCase id store = (.ok (), store2)) :
    store2 = store.filter fun useCase => useCase.id != id := by
  unfold deleteUseCase deleteUseCaseTry at h
  by_cases hlen :
      store.length = (store.filter fun useCase => useCase.id != id).length
  · simp [hlen] at h
  · simp [hlen] at h
    exact h.symm

/-- C4: a `getById` for an id with no matching record yields an absent
result rather than an error: on the local backend directly, on the local
backend after a successful delete of that id, and on the remote backend
whenever the point lookup reports neither an error nor a row. -/
theorem getById_absent_not_error (id nowIso : String)
    (store store2 : List UseCase) :
    ((∀ r ∈ store, r.id ≠ id) → getUseCaseById id store = none) ∧
    (deleteUseCase id store = (.ok (), store2) →
      getUseCaseById id store2 = none) ∧
    getUseCaseByIdSupabase id nowIso (none, none) = .ok none := by
  refine ⟨getUseCaseById_none_of_notMem id store, ?_, rfl⟩
  intro h
  rw [deleteUseCase_ok_filter id store store2 h]
  apply getUseCaseById_none_of_notMem
  intro r hr
  have := (List.mem_filter.mp hr).2
  simpa using this

theorem getById_absent_not_error_witness :
    (∀ r ∈ [sampleUseCase], r.id ≠ "nonexistent-id") ∧
    getUseCaseById "nonexistent-id" [sampleUseCase] = none ∧
    deleteUseCase "u1" [sampleUseCase] = (.ok (), []) ∧
    getUseCaseById "u1" [] = none ∧
    getUseCaseByIdSupabase "nonexistent-id" "t0" (none, none) =
      .ok none :=
  ⟨by decide,
   (getById_absent_not_error "nonexistent-id" "t0" [sampleUseCase] []).1
     (by decide),
   by rfl,
   (getById_absent_not_error "u1" "t0" [sampleUseCase] []).2.1 (by rfl),
   (getById_absent_not_error "nonexistent-id" "t0" [] []).2.2⟩

/-- `findIndex`-style update of the first matching record. -/
theorem updateUseCaseGo_append (id : String) (data : PartialUseCaseFormData)
    (nowIso : String) (pre post : List UseCase) (u : UseCase)
    (hpre : ∀ r ∈ pre, r.id ≠ id) (hu : u.id = id) :
    updateUseCaseGo id data nowIso (pre ++ u :: post) =
      some (applyUpdate data nowIso u,
        pre ++ applyUpdate data nowIso u :: post) := by
  induction pre with
  | nil => simp [updateUseCaseGo, hu]
  | cons p rest ih =>
      have hp : (p.id == id) = false := by
        simpa using hpre p (by simp)
      have ih2 := ih fun r hr => hpre r (by simp [hr])
      simp [updateUseCaseGo, hp, ih2]

/-- No record matches: the update scan returns `none`. -/
theorem updateUseCaseGo_none (id : String) (data : PartialUseCaseFormData)
    (nowIso : String) (store : List UseCase)
    (h : ∀ r ∈ store, r.id ≠ id) :
    updateUseCaseGo id data nowIso store = none := by
  induction store with
  | nil => rfl
  | cons p rest ih =>
      have hp : (p.id == id) = false := by
        simpa using h p (by simp)
      simp [updateUseCaseGo, hp, ih fun r hr => h r (by simp [hr])]

/-- Every record the update scan returns is `applyUpdate` of some stored
record. -/
theorem updateUseCaseGo_some (id : String) (data : PartialUseCaseFormData)
    (nowIso : String) (store store2 : List UseCase) (uc : UseCase)
    (h : updateUseCaseGo id data nowIso store = some (uc, store2)) :
    ∃ w, uc = applyUpdate data nowIso w := by
  induction store generalizing store2 with
  | nil => simp [updateUseCaseGo] at h
  | cons p rest ih =>
      cases hp : (p.id == id) with
      | true =>
          simp [updateUseCaseGo, hp] at h
          exact ⟨p, h.1.symm⟩
      | false =>
          simp only [updateUseCaseGo, hp, Bool.false_eq_true, if_false] at h
          cases hrest : updateUseCaseGo id data nowIso rest with
          | none => rw [hrest] at h; simp at h
          | some pr =>
              obtain ⟨u1, rest2⟩ := pr
              rw [hrest] at h
              simp at h
              exact ih rest2 (by rw [hrest, h.1])

/-- C6: a local-backend update whose partial input supplies `categories` but
omits `title` replaces the category list wholesale, re-derives `category`
from its first element, and leaves `title` (and every other omitted field)
at its previous value; and every successful update stamps `updatedAt` with
the update time, whatever fields the partial input contains. -/
theorem update_partial_semantics (id nowIso : String)
    (data : PartialUseCaseFormData) (pre post : List UseCase) (u : UseCase)
    (cs : List String) (hpre : ∀ r ∈ pre, r.id ≠ id) (hu : u.id = id)
    (ht : data.title = none) (hc : data.categories = some cs) :
    (∃ uc, updateUseCase id data nowIso (pre ++ u :: post) =
        (.ok uc, pre ++ uc :: post) ∧
      uc.categories = cs ∧ uc.category = headOrEmpty cs ∧
      uc.title = u.title ∧ uc.id = u.id ∧ uc.createdAt = u.createdAt ∧
      (data.industries = none →
        uc.industries = u.industries ∧
        uc.industry = headOrEmpty u.industries) ∧
      (data.description = none → uc.description = u.description) ∧
      (data.content = none → uc.content = u.content) ∧
      (data.imageUrl = none → uc.imageUrl = u.imageUrl) ∧
      (data.status = none → uc.status = u.status) ∧
      uc.updatedAt = nowIso) ∧
    (∀ (id2 nowIso2 : String) (data2 : PartialUseCaseFormData)
        (store store2 : List UseCase) (uc : UseCase),
      updateUseCase id2 data2 nowIso2 store = (.ok uc, store2) →
      uc.updatedAt = nowIso2) := by
  constructor
  · have hgo := updateUseCaseGo_append id data nowIso pre post u hpre hu
    refine ⟨applyUpdate data nowIso u, by simp [updateUseCase, hgo], ?_, ?_,
      ?_, rfl, rfl, ?_, ?_, ?_, ?_, ?_, rfl⟩
    · simp [applyUpdate, hc, safeEnsureArray_jsStrArr]
    · simp [applyUpdate, hc, safeEnsureArray_jsStrArr]
    · simp [applyUpdate, ht]
    · intro hind
      constructor <;> simp [applyUpdate, hind, safeEnsureArray_jsStrArr]
    · intro h; simp [applyUpdate, h]
    · intro h; simp [applyUpdate, h]
    · intro h; simp [applyUpdate, h]
    · intro h; simp [applyUpdate, h]
  · intro id2 nowIso2 data2 store store2 uc h
    unfold updateUseCase at h
    cases hgo2 : updateUseCaseGo id2 data2 nowIso2 store with
    | none => rw [hgo2] at h; simp at h
    | some pr =>
        obtain ⟨u1, st⟩ := pr
        rw [hgo2] at h
        simp at h
        obtain ⟨w, hw⟩ :=
          updateUseCaseGo_some id2 data2 nowIso2 store st u1 hgo2
        rw [← h.1, hw]
        simp [applyUpdate]

theorem update_partial_semantics_witness :
    (∀ r ∈ ([] : List UseCase), r.id ≠ "u1") ∧
    sampleUseCase.id = "u1" ∧
    newCatPartial.title = none ∧
    newCatPartial.categories = some ["NewCat"] ∧
    ((∃ uc, updateUseCase "u1" newCatPartial "t9" ([] ++ sampleUseCase :: []) =
        (.ok uc, [] ++ uc :: []) ∧
      uc.categories = ["NewCat"] ∧ uc.category = headOrEmpty ["NewCat"] ∧
      uc.title = sampleUseCase.title ∧ uc.id = sampleUseCase.id ∧
      uc.createdAt = sampleUseCase.createdAt ∧
      (newCatPartial.industries = none →
        uc.industries = sampleUseCase.industries ∧
        uc.industry = headOrEmpty sampleUseCase.industries) ∧
      (newCatPartial.description = none →
        uc.description = sampleUseCase.description) ∧
      (newCatPartial.content = none → uc.content = sampleUseCase.content) ∧
      (newCatPartial.imageUrl = none →
        uc.imageUrl = sampleUseCase.imageUrl) ∧
      (newCatPartial.status = none → uc.status = sampleUseCase.status) ∧
      uc.updatedAt = "t9") ∧
    (∀ (id2 nowIso2 : String) (data2 : PartialUseCaseFormData)
        (store store2 : List UseCase) (uc : UseCase),
      updateUseCase id2 data2 nowIso2 store = (.ok uc, store2) →
      uc.updatedAt = nowIso2)) :=
  ⟨by simp, rfl, rfl, rfl,
   update_partial_semantics "u1" "t9" newCatPartial [] [] sampleUseCase
     ["NewCat"] (by simp) rfl rfl rfl⟩

/-- The local not-found update message never coincides with a
backend-wrapped update failure message (they begin with different
characters). -/
theorem notfound_msg_ne_update_backend_msg (id m : String) :
    ("Use case with ID " ++ id ++ " not found") ≠
      ("Failed to update use case: " ++ m) := by
  intro h
  have h2 : some 'U' = some 'F' :=
    calc some 'U'
        = ("Use case with ID " ++ id ++ " not found").data.head? := rfl
      _ = ("Failed to update use case: " ++ m).data.head? := by rw [h]
      _ = some 'F' := rfl
  exact absurd h2 (by decide)

/-- C7 (amended): update and delete against a nonexistent id on the local
backend both fail with the store unchanged, and both raise the not-found
message `Use case with ID ${id} not found` internally; update surfaces that
message unchanged (distinguishable from every backend-wrapped update
failure), but delete's own catch replaces it with the generic
`Failed to delete use case with ID ${id}` — the very message surfaced for a
backend-reported delete failure. -/
theorem notfound_update_delete (id m nowIso : String)
    (data : PartialUseCaseFormData) (store : List UseCase)
    (hmiss : ∀ r ∈ store, r.id ≠ id) :
    updateUseCase id data nowIso store =
      (.error ("Use case with ID " ++ id ++ " not found"), store) ∧
    (Except.error ("Use case with ID " ++ id ++ " not found") ≠
      updateUseCaseSupabase (.error m) nowIso) ∧
    deleteUseCaseTry id store =
      (.error ("Use case with ID " ++ id ++ " not found"), store) ∧
    deleteUseCase id store =
      (.error ("Failed to delete use case with ID " ++ id), store) ∧
    deleteUseCaseSupabase id (some m) =
      .error ("Failed to delete use case with ID " ++ id) := by
  have hgo := updateUseCaseGo_none id data nowIso store hmiss
  have hfil : store.filter (fun useCase => useCase.id != id) = store := by
    rw [List.filter_eq_self]
    intro a ha
    simpa using hmiss a ha
  have htry : deleteUseCaseTry id store =
      (.error ("Use case with ID " ++ id ++ " not found"), store) := by
    simp [deleteUseCaseTry, hfil]
  refine ⟨by simp [updateUseCase, hgo], ?_, htry,
    by simp [deleteUseCase, htry], rfl⟩
  intro h
  rw [show updateUseCaseSupabase (.error m) nowIso =
        .error ("Failed to update use case: " ++ m) from rfl] at h
  exact notfound_msg_ne_update_backend_msg id m (by
    injection h with h2)

theorem notfound_update_delete_witness :
    (∀ r ∈ [sampleUseCase], r.id ≠ "nonexistent-id") ∧
    (updateUseCase "nonexistent-id" newCatPartial "t0" [sampleUseCase] =
      (.error ("Use case with ID " ++ "nonexistent-id" ++ " not found"),
        [sampleUseCase]) ∧
    (Except.error ("Use case with ID " ++ "nonexistent-id" ++ " not found") ≠
      updateUseCaseSupabase (.error "boom") "t0") ∧
    deleteUseCaseTry "nonexistent-id" [sampleUseCase] =
      (.error ("Use case with ID " ++ "nonexistent-id" ++ " not found"),
        [sampleUseCase]) ∧
    deleteUseCase "nonexistent-id" [sampleUseCase] =
      (.error ("Failed to delete use case with ID " ++ "nonexistent-id"),
        [sampleUseCase]) ∧
    deleteUseCaseSupabase "nonexistent-id" (some "boom") =
      .error ("Failed to delete use case with ID " ++ "nonexistent-id")) :=
  ⟨by decide,
   notfound_update_delete "nonexistent-id" "boom" "t0" newCatPartial
     [sampleUseCase] (by decide)⟩

/-- C7 (counterexample to the claim as stated): on the local backend, the
failure surfaced by deleting a nonexistent id is byte-for-byte the same
error as the one surfaced when the remote backend itself fails a delete —
the not-found condition is not distinguishable from a generic backend
error. -/
theorem delete_notfound_indistinguishable :
    deleteUseCase "x" [] =
      (.error "Failed to delete use case with ID x", []) ∧
    deleteUseCaseSupabase "x" (some "connection reset") =
      .error "Failed to delete use case with ID x" :=
  ⟨rfl, rfl⟩

/-- The legacy-scalar fallback of the local read paths preserves the
derived-scalar relation. -/
theorem headOrEmpty_fallback (industry : String) (industries : List String)
    (h : industry = headOrEmpty industries) :
    industry = headOrEmpty
      (if industries.length > 0 then industries
       else filterBoolean [industry]) := by
  cases industries with
  | nil =>
      simp [headOrEmpty] at h
      simp [h, filterBoolean, headOrEmpty]
  | cons a t =>
      simp [headOrEmpty] at h ⊢
      exact h

/-- The remote `getUseCaseById` scalar derivation lands on the first element
of the normalized list for consistent rows. -/
theorem supabase_scalar_inv (s : String) (l : List String)
    (h : s = "" ∨ s = headOrEmpty l) :
    (if s ≠ "" then s else headOrEmpty l) = headOrEmpty l := by
  rcases h with h | h
  · simp [h]
  · by_cases hs : s = "" <;> simp [hs, h]

/-- The remote `getUseCases` scalar derivation lands on the first element of
the final (fallback-completed) list for consistent rows. -/
theorem supabase_list_scalar_inv (s : String) (l0 : List String)
    (h : s = "" ∨ s = headOrEmpty l0) :
    (if s ≠ "" then s
     else headOrEmpty (if l0.length = 0 ∧ s ≠ "" then [s] else l0)) =
      headOrEmpty (if l0.length = 0 ∧ s ≠ "" then [s] else l0) := by
  by_cases hs : s = ""
  · simp [hs]
  · rcases h with h | h
    · exact absurd h hs
    · by_cases hl : l0.length = 0
      · simp [hs, hl, headOrEmpty]
      · simp [hs, hl, h]

/-- Every record produced by `applyUpdate` satisfies the invariant. -/
theorem applyUpdate_inv (data : PartialUseCaseFormData) (nowIso : String)
    (w : UseCase) : InvUseCase (applyUpdate data nowIso w) :=
  ⟨rfl, rfl⟩

/-- A successful create returns an invariant-satisfying entity. -/
theorem createUseCase_ok_inv (data : UseCaseFormData) (nowMs : Nat)
    (nowIso : String) (store store2 : List UseCase) (uc : UseCase)
    (h : createUseCase data nowMs nowIso store = (.ok uc, store2)) :
    InvUseCase uc := by
  by_cases h1 : jsTrim data.title = ""
  · simp [createUseCase, h1] at h
  by_cases h2 : jsTrim data.description = ""
  · simp [createUseCase, h1, h2] at h
  by_cases h3 : jsTrim data.content = ""
  · simp [createUseCase, h1, h2, h3] at h
  by_cases h4 :
      (safeEnsureArray (jsStrArr data.industries) "create_industries").length
        = 0
  · simp [createUseCase, h1, h2, h3, h4] at h
  by_cases h5 :
      (safeEnsureArray (jsStrArr data.categories) "create_categories").length
        = 0
  · simp [createUseCase, h1, h2, h3, h4, h5] at h
  simp [createUseCase, h1, h2, h3, h4, h5] at h
  obtain ⟨hu, -⟩ := h
  rw [← hu]
  exact ⟨rfl, rfl⟩

/-- A successful update returns an invariant-satisfying entity. -/
theorem updateUseCase_ok_inv (id : String) (data : PartialUseCaseFormData)
    (nowIso : String) (store store2 : List UseCase) (uc : UseCase)
    (h : updateUseCase id data nowIso store = (.ok uc, store2)) :
    InvUseCase uc := by
  unfold updateUseCase at h
  cases hgo : updateUseCaseGo id data nowIso store with
  | none => rw [hgo] at h; simp at h
  | some pr =>
      obtain ⟨u1, st⟩ := pr
      rw [hgo] at h
      simp at h
      obtain ⟨w, hw⟩ := updateUseCaseGo_some id data nowIso store st u1 hgo
      rw [← h.1, hw]
      exact applyUpdate_inv data nowIso w

/-- Local `getUseCaseById` preserves the invariant of stored records. -/
theorem getUseCaseById_inv (id : String) (store : List UseCase) (u : UseCase)
    (hstore : ∀ r ∈ store, InvUseCase r)
    (h : getUseCaseById id store = some u) : InvUseCase u := by
  unfold getUseCaseById at h
  cases hf : store.find? (fun useCase => useCase.id == id) with
  | none => rw [hf] at h; simp at h
  | some w =>
      rw [hf] at h
      obtain ⟨hwi, hwc⟩ := hstore w (List.mem_of_find?_eq_some hf)
      simp only [safeEnsureArray_jsStrArr, Option.some.injEq] at h
      rw [← h]
      exact ⟨headOrEmpty_fallback w.industry w.industries hwi,
        headOrEmpty_fallback w.category w.categories hwc⟩

/-- Local `getUseCases` preserves the invariant of stored records. -/
theorem getUseCases_inv (store : List UseCase) (u : UseCase)
    (hstore : ∀ r ∈ store, InvUseCase r) (h : u ∈ getUseCases store) :
    InvUseCase u := by
  unfold getUseCases at h
  obtain ⟨w, hw, hu⟩ := List.mem_map.mp h
  obtain ⟨hwi, hwc⟩ := hstore w hw
  simp only [ensureArray, safeEnsureArray_jsStrArr] at hu
  rw [← hu]
  exact ⟨headOrEmpty_fallback w.industry w.industries hwi,
    headOrEmpty_fallback w.category w.categories hwc⟩

/-- Remote `getUseCaseById` yields invariant-satisfying entities from
consistent rows. -/
theorem getUseCaseByIdSupabase_inv (id nowIso : String) (row : SupabaseRow)
    (u : UseCase) (hrow : RowConsistent row)
    (h : getUseCaseByIdSupabase id nowIso (none, some row) = .ok (some u)) :
    InvUseCase u := by
  obtain ⟨hri, hrc⟩ := hrow
  simp only [getUseCaseByIdSupabase, Except.ok.injEq, Option.some.injEq] at h
  rw [← h]
  constructor
  · exact supabase_scalar_inv row.industry
      (safeEnsureArray row.industries "supabase_get_industries") hri
  · exact supabase_scalar_inv row.category
      (safeEnsureArray row.categories "supabase_get_categories") hrc

/-- Remote `getUseCases` yields invariant-satisfying entities from
consistent rows. -/
theorem getUseCasesSupabase_inv (rows : List SupabaseRow)
    (ucs : List UseCase) (u : UseCase)
    (hrows : ∀ row ∈ rows, RowConsistent row)
    (h : getUseCasesSupabase (.ok rows) = .ok ucs) (hu : u ∈ ucs) :
    InvUseCase u := by
  simp only [getUseCasesSupabase, Except.ok.injEq] at h
  rw [← h] at hu
  obtain ⟨row, hrow, hru⟩ := List.mem_map.mp hu
  obtain ⟨hri, hrc⟩ := hrows row hrow
  rw [← hru]
  constructor
  · exact supabase_list_scalar_inv row.industry (ensureArray row.industries)
      hri
  · exact supabase_list_scalar_inv row.category (ensureArray row.categories)
      hrc

/-- C3 (amended): entities returned by create and update always satisfy the
derived-scalar invariant (`industry`/`category` equal the first elements of
`industries`/`categories`, or `""` when the array is empty); entities
returned by the read operations (local and remote `list`/`getById`) satisfy
it provided each stored/returned raw record does — the shape gateway writes
themselves establish. -/
theorem derived_scalar_invariant :
    (∀ (data : UseCaseFormData) (nowMs : Nat) (nowIso : String)
        (store store2 : List UseCase) (uc : UseCase),
      createUseCase data nowMs nowIso store = (.ok uc, store2) →
      InvUseCase uc) ∧
    (∀ (id nowIso : String) (data : PartialUseCaseFormData)
        (store store2 : List UseCase) (uc : UseCase),
      updateUseCase id data nowIso store = (.ok uc, store2) →
      InvUseCase uc) ∧
    (∀ (id : String) (store : List UseCase) (u : UseCase),
      (∀ r ∈ store, InvUseCase r) → getUseCaseById id store = some u →
      InvUseCase u) ∧
    (∀ (store : List UseCase) (u : UseCase),
      (∀ r ∈ store, InvUseCase r) → u ∈ getUseCases store → InvUseCase u) ∧
    (∀ (id nowIso : String) (row : SupabaseRow) (u : UseCase),
      RowConsistent row →
      getUseCaseByIdSupabase id nowIso (none, some row) = .ok (some u) →
      InvUseCase u) ∧
    (∀ (rows : List SupabaseRow) (ucs : List UseCase) (u : UseCase),
      (∀ row ∈ rows, RowConsistent row) →
      getUseCasesSupabase (.ok rows) = .ok ucs → u ∈ ucs → InvUseCase u) :=
  ⟨fun data nowMs nowIso store store2 uc h =>
      createUseCase_ok_inv data nowMs nowIso store store2 uc h,
   fun id nowIso data store store2 uc h =>
      updateUseCase_ok_inv id data nowIso store store2 uc h,
   fun id store u hstore h => getUseCaseById_inv id store u hstore h,
   fun store u hstore h => getUseCases_inv store u hstore h,
   fun id nowIso row u hrow h =>
      getUseCaseByIdSupabase_inv id nowIso row u hrow h,
   fun rows ucs u hrows h hu =>
      getUseCasesSupabase_inv rows ucs u hrows h hu⟩

theorem derived_scalar_invariant_witness :
    createUseCase financeFormData 5 "t0" [] =
      (.ok financeCreated, [financeCreated]) ∧
    InvUseCase financeCreated ∧
    (∀ r ∈ [sampleUseCase], InvUseCase r) ∧
    getUseCaseById "u1" [sampleUseCase] = some sampleUseCase ∧
    InvUseCase sampleUseCase :=
  ⟨by rfl, derived_scalar_invariant.1 financeFormData 5 "t0" []
      [financeCreated] financeCreated (by rfl),
   by decide, by decide,
   derived_scalar_invariant.2.2.1 "u1" [sampleUseCase] sampleUseCase
     (by decide) (by decide)⟩

/-- C3 (counterexample to the claim as stated): reading a legacy stored
record whose scalar `industry` (`"X"`) disagrees with its array
(`["Y"]`) — the local `getUseCaseById` returns it with the disagreement
intact, so not every entity returned by a gateway operation satisfies the
invariant. -/
theorem derived_scalar_invariant_counterexample :
    getUseCaseById "u2" [badStoredUseCase] = some badStoredUseCase ∧
    ¬ InvUseCase badStoredUseCase :=
  ⟨by decide, by decide⟩
